import Mathlib

/-!
Verification of the concurrent Ollama probing-and-benchmarking pipeline
(`rebecca554owen/scan`).  The network, the clock and the file system are
modelled as explicit inputs (oracles): an HTTP exchange is an
`Option (status × decoded body)` value, a streaming benchmark response is a
list of timestamped NDJSON lines, and the output file is a byte (char)
sequence acted on by truncate/write operations.  All functions below are
direct translations of the Go sources; the file each one comes from is
named in its doc comment.  Go `float64` quantities are modelled as `ℚ`,
with `Option ℚ` where a division can produce a non-finite value (`none`
models `±Inf`/`NaN`).
-/

section ScanModel

/- Rational arithmetic must evaluate inside `decide` proofs below; the
Batteries implementations are sealed by default. -/
attribute [local semireducible] Rat.mul Rat.add Rat.sub Rat.inv

/-! ### Generic character-list utilities (embedding support) -/

/-- Split a character list at every occurrence of the separator, keeping
empty segments, mirroring Go `strings.Split` (which yields `n+1` segments
for `n` separators). -/
def splitChar (sep : Char) : List Char → List (List Char)
  | [] => [[]]
  | c :: rest =>
    if c = sep then [] :: splitChar sep rest
    else
      match splitChar sep rest with
      | [] => [[c]]
      | h :: t => (c :: h) :: t

/-- Helper: `matchAt pat l` is true when `pat` is an initial segment of `l`. -/
def matchAt : List Char → List Char → Bool
  | [], _ => true
  | _ :: _, [] => false
  | p :: ps, c :: cs => p = c && matchAt ps cs

/-- Helper: `containsSeg pat l` is true when `pat` occurs contiguously inside `l`;
mirrors Go `strings.Contains`. -/
def containsSeg (pat : List Char) : List Char → Bool
  | [] => matchAt pat []
  | c :: cs => matchAt pat (c :: cs) || containsSeg pat cs

/-- Digits-to-value accumulator used by the float parser. -/
def natOfDigits (l : List Char) : ℕ :=
  l.foldl (fun acc c => acc * 10 + (c.toNat - 48)) 0

/-- Model of Go `strconv.ParseFloat` restricted to plain decimal notation
(optional sign, decimal digits with at most one point, optional decimal
exponent) — the only shapes a model-size suffix such as `"7"` or `"0.5"`
takes.  Returns `none` where `ParseFloat` reports an error; hexadecimal
floats, `inf`/`NaN` spellings and digit-grouping underscores are outside
the modelled fragment. -/
def parseGoFloat (s : List Char) : Option ℚ :=
  let (sign, s1) : ℚ × List Char :=
    match s with
    | '+' :: t => (1, t)
    | '-' :: t => (-1, t)
    | t => (1, t)
  let intPart := s1.takeWhile (·.isDigit)
  let s2 := s1.dropWhile (·.isDigit)
  let (fracPart, s3) : List Char × List Char :=
    match s2 with
    | '.' :: t => (t.takeWhile (·.isDigit), t.dropWhile (·.isDigit))
    | t => ([], t)
  if intPart.isEmpty && fracPart.isEmpty then none
  else
    let mant : ℚ := (natOfDigits intPart : ℚ) + (natOfDigits fracPart : ℚ) / ((10 : ℚ) ^ fracPart.length)
    match s3 with
    | 'e' :: t | 'E' :: t =>
      let (esign, t1) : ℤ × List Char :=
        match t with
        | '+' :: u => (1, u)
        | '-' :: u => (-1, u)
        | u => (1, u)
      let expDigits := t1.takeWhile (·.isDigit)
      let t2 := t1.dropWhile (·.isDigit)
      if expDigits.isEmpty then none
      else if ¬ t2.isEmpty then none
      else
        let e : ℤ := esign * (natOfDigits expDigits : ℤ)
        let scale : ℚ := if 0 ≤ e then (10 : ℚ) ^ e.toNat else 1 / ((10 : ℚ) ^ (-e).toNat)
        some (sign * mant * scale)
    | [] => some (sign * mant)
    | _ :: _ => none

/-! ### Port prober (`checkPort`, src/main.go:822-829)

The TCP dial is an oracle: `DialOutcome.ok` is a connection established
within the configured timeout, `DialOutcome.err e` any failed dial,
tagged with the cause the Go `error` value would carry.  `checkPort`
translates the Go body: any error yields `false` (Closed), success
yields `true` (Open) after closing the transient socket. -/

/-- The kinds of dial failure distinguished by the spec's taxonomy. -/
inductive DialErr where
  | refused
  | timeout
  | unreachable
  | dnsFailure
  deriving DecidableEq

/-- Result of `net.DialTimeout` for one address. -/
inductive DialOutcome where
  | ok
  | err (e : DialErr)
  deriving DecidableEq

/-- Translation of `checkPort` (src/main.go:822-829): `Open` iff the dial succeeded. -/
def checkPort (d : DialOutcome) : Bool :=
  match d with
  | .ok => true
  | .err _ => false

/-! ### Service prober (`checkOllama`)

An HTTP exchange is `none` for a transport error, or `some (status, body)`.
The body of the root-endpoint variant is raw bytes (chars); the
catalog-only variant's body is the JSON decode outcome of `/api/tags`:
`none` when undecodable, `some k` when it decodes with `k` entries in
its `models` array. -/

/-- The service-identifying marker string (src/main.go:841). -/
def ollamaMarker : List Char := "Ollama is running".data

/-- Translation of `checkOllama` (src/main.go:832-842): GET on the root endpoint; a
transport error or a status other than exactly 200 yields `false`; on
200 the code performs a single `Read` into a 1024-byte buffer and
checks that the chunk contains the marker, modelled as the first
1024 bytes of the body. -/
def checkOllama (resp : Option (ℕ × List Char)) : Bool :=
  match resp with
  | none => false
  | some (status, body) =>
    if status ≠ 200 then false
    else containsSeg ollamaMarker (body.take 1024)

/-- Translation of `checkOllama` (src/unnamed/part_001:380-397, catalog-only variant):
GET `/api/tags`; a transport error or non-200 status yields `false`;
otherwise the body must decode as JSON and carry a non-empty `models`
array. -/
def checkOllama_cat (resp : Option (ℕ × Option ℕ)) : Bool :=
  match resp with
  | none => false
  | some (status, decoded) =>
    if status ≠ 200 then false
    else
      match decoded with
      | none => false
      | some k => decide (0 < k)

/-! ### Model catalog fetcher (`getModels`, `parseModelSize`, `sortModels`)

The `/api/tags` exchange is `none` for a transport error, otherwise
`some (status, decoded)` where `decoded = none` models an undecodable
JSON document and `decoded = some names` the `model` fields of the
decoded `models` array, in document order (duplicates preserved). -/

/-- Translation of `getModels` (src/main.go:845-870): returns the extracted identifier
list; every failure (transport, non-200, undecodable) returns the empty
list (Go `nil`), never an error. -/
def getModels (resp : Option (ℕ × Option (List String))) : List String :=
  match resp with
  | none => []
  | some (status, decoded) =>
    if status ≠ 200 then []
    else
      match decoded with
      | none => []
      | some names => names

/-- Go `strings.TrimSuffix(s, "b")`: drop one trailing `'b'` when present. -/
def trimSuffixB (l : List Char) : List Char :=
  if l.getLast? = some 'b' then l.dropLast else l

/-- Translation of `parseModelSize` (src/main.go:873-885): split the identifier on
`':'`; fewer than two segments yields 0; otherwise strip a trailing
`'b'` from the last segment and parse it as a float, any parse error
yielding 0. -/
def parseModelSize (model : String) : ℚ :=
  let parts := splitChar ':' model.data
  if parts.length < 2 then 0
  else
    let sizeStr := trimSuffixB (parts.getLastD [])
    match parseGoFloat sizeStr with
    | none => 0
    | some v => v

/-- The comparison `sortModels` sorts by (src/main.go:889-891). -/
def sizeLe (a b : String) : Prop := parseModelSize a ≤ parseModelSize b

instance : DecidableRel sizeLe := fun _ _ => inferInstanceAs (Decidable (_ ≤ _))

instance : IsTotal String sizeLe := ⟨fun _ _ => le_total _ _⟩

instance : IsTrans String sizeLe := ⟨fun _ _ _ => le_trans⟩

/-- Translation of `sortModels` (src/main.go:888-893): `sort.Slice` on the parsed model
size.  Embedded as a sort that is correct for the comparator (sorted
output, a permutation of the input); Go leaves the order of equal-size
identifiers unspecified, and no theorem below depends on tie order. -/
def sortModels (models : List String) : List String :=
  List.insertionSort sizeLe models

/-- Byte-wise lexicographic `≤` on identifiers, as Go `sort.Strings`
compares them (identifiers here are ASCII, where byte order and
character order agree). -/
def lexLeB : List Char → List Char → Bool
  | [], _ => true
  | _ :: _, [] => false
  | a :: as, b :: bs => if a = b then lexLeB as bs else decide (a.toNat < b.toNat)

/-- The relation `sort.Strings` sorts by. -/
def lexLe (a b : String) : Prop := lexLeB a.data b.data = true

instance : DecidableRel lexLe := fun _ _ => inferInstanceAs (Decidable (_ = true))

/-- Translation of `sortModels` (src/unnamed/part_001:428-431 and part_000:1068-1071):
`sort.Strings`, plain lexicographic order. -/
def sortModels_lex (models : List String) : List String :=
  List.insertionSort lexLe models

/-! ### Benchmark engine (`benchmarkModel`)

Timestamps are modelled as `ℤ` nanoseconds (Go `time.Time`/`time.Duration`
are int64 nanosecond values; `time.Time{}` is instant 0).  A streaming
response is `none` for a transport error before any byte, otherwise
`some (status, lines)` where `lines` are the NDJSON lines of the body in
arrival order.  Each line records the `time.Now()` observed when the
scanner yields it (the code's adjacent `firstToken`/`lastToken` calls to
`time.Now()` within one iteration are modelled as equal), the `response`
token fragment the line carries (never inspected by any variant), and
the JSON decode outcome: `none` when `json.Unmarshal` fails (the loop
`continue`s, the line still counted), `some done` for the decoded `done`
flag (`false` when absent or not a boolean, as the Go type assertion
yields).  `tokens_per_second` is a float: `Option ℚ` with `none` for the
non-finite value produced by dividing a positive count by zero. -/

/-- One NDJSON line of a streaming generation response. -/
structure StreamLine where
  time : ℤ
  frag : String
  decoded : Option Bool
  deriving DecidableEq

/-- The closed status set of the benchmark variants (returned as strings
by the Go code; `statusText` renders the main.go wording). -/
inductive BStatus where
  | notTested
  | connectionFailed
  | httpError (code : ℕ)
  | noResponse
  | zeroInterval
  | success
  deriving DecidableEq

/-- Outcome of one benchmark: first-token latency (a `time.Duration` in
nanoseconds), tokens-per-second, status. -/
structure BenchResult where
  latency : ℤ
  tps : Option ℚ
  status : BStatus
  deriving DecidableEq

/-- The scan loop of every `benchmarkModel` variant: consume lines in
order, counting each one (decode failures included), and break after the
first line whose decoded `done` flag is true. -/
def takeUntilDone : List StreamLine → List StreamLine
  | [] => []
  | l :: ls => if l.decoded = some true then [l] else l :: takeUntilDone ls

/-- Model of `float64(tokenCount) / elapsed.Seconds()` with `elapsed` in
nanoseconds: `none` (`+Inf`) when the elapsed interval is zero. -/
def divTokens (count : ℕ) (elapsedNs : ℤ) : Option ℚ :=
  if elapsedNs = 0 then none
  else some ((count : ℚ) * 1000000000 / (elapsedNs : ℚ))

/-- Translation of `benchmarkModel` (src/main.go:896-958): `start` is the `time.Now()`
recorded before the request is sent.  Note the division
`tokenCount / lastToken.Sub(start).Seconds()` is not guarded against a
zero interval, and no zero-interval status exists in this variant. -/
def benchmarkModel (disableBench : Bool) (start : ℤ)
    (resp : Option (ℕ × List StreamLine)) : BenchResult :=
  if disableBench then ⟨0, some 0, .notTested⟩
  else
    match resp with
    | none => ⟨0, some 0, .connectionFailed⟩
    | some (status, lines) =>
      if status ≠ 200 then ⟨0, some 0, .httpError status⟩
      else
        match takeUntilDone lines with
        | [] => ⟨0, some 0, .noResponse⟩
        | l :: ls =>
          let firstT := l.time
          let lastT := ((l :: ls).getLastD l).time
          ⟨firstT - start, divTokens (l :: ls).length (lastT - start), .success⟩

/-- Translation of `benchmarkModel` (src/unnamed/part_001:434-495): elapsed time runs
from the first to the last token; a zero interval returns the dedicated
`Zero time interval` status before any division; the reported latency is
`firstToken.Sub(time.Time{})`, i.e. the absolute first-token instant. -/
def benchmarkModel_p001 (resp : Option (ℕ × List StreamLine)) : BenchResult :=
  match resp with
  | none => ⟨0, some 0, .connectionFailed⟩
  | some (status, lines) =>
    if status ≠ 200 then ⟨0, some 0, .httpError status⟩
    else
      match takeUntilDone lines with
      | [] => ⟨0, some 0, .noResponse⟩
      | l :: ls =>
        let firstT := l.time
        let lastT := ((l :: ls).getLastD l).time
        if lastT - firstT = 0 then ⟨0, some 0, .zeroInterval⟩
        else ⟨firstT - 0, divTokens (l :: ls).length (lastT - firstT), .success⟩

/-- Translation of `benchmarkModel` (src/unnamed/part_000:1075-1134): the reported
latency is `首个令牌时间.Sub(time.Now())` — first-token instant minus the
`time.Now()` observed *after* the stream is drained (`nowEnd`), and the
`lastToken - firstToken` division is unguarded. -/
def benchmarkModel_p000 (nowEnd : ℤ)
    (resp : Option (ℕ × List StreamLine)) : BenchResult :=
  match resp with
  | none => ⟨0, some 0, .connectionFailed⟩
  | some (status, lines) =>
    if status ≠ 200 then ⟨0, some 0, .httpError status⟩
    else
      match takeUntilDone lines with
      | [] => ⟨0, some 0, .noResponse⟩
      | l :: ls =>
        let firstT := l.time
        let lastT := ((l :: ls).getLastD l).time
        ⟨firstT - nowEnd, divTokens (l :: ls).length (lastT - firstT), .success⟩

/-- main.go's status strings (src/main.go:898,919,924,952,957); the
`zeroInterval` wording exists only in the part_001 variant (in English)
and is unreachable from `benchmarkModel`. -/
def statusText : BStatus → String
  | .notTested => "未测试"
  | .connectionFailed => "连接失败"
  | .httpError code => "HTTP " ++ toString code
  | .noResponse => "无响应"
  | .zeroInterval => "Zero time interval"
  | .success => "成功"

/-! ### Per-host pipeline with pooled results (`processBatch`, `resultPool`)

`ScanResult`/`ModelInfo` mirror src/main.go:26-37.  The `sync.Pool`
(src/main.go:80-85) is modelled as a stack of free `ScanResult` objects:
`Get` pops the most recently `Put` object when one is cached (the
documented hazard case — `sync.Pool` is free to return it) or allocates
a fresh zero value; `Put` pushes.  The per-host network interaction is
an oracle `HostEnv` giving, for each address, the port-dial outcome, the
service-check outcome and the catalog `getModels` would extract; the
per-model benchmark is an oracle function.  A send on the results
channel copies the struct, so `outputs` records the value at send time. -/

/-- Translation of `ModelInfo` (src/main.go:32-37). -/
structure ModelInfo where
  name : String
  firstTokenDelay : ℤ
  tokensPerSec : Option ℚ
  status : String
  deriving DecidableEq

/-- Translation of `ScanResult` (src/main.go:26-29). -/
structure ScanResult where
  ip : String
  models : List ModelInfo
  deriving DecidableEq

/-- Configuration flags consumed by `processBatch`. -/
structure ScanConfig where
  portScanOnly : Bool
  disableBench : Bool

/-- What the network returns for one candidate address. -/
structure HostEnv where
  portOpen : Bool
  ollamaOk : Bool
  catalog : List String

/-- Pipeline state: the pool's free list and the records sent on
`resultsChan`, in send order. -/
structure PipeState where
  pool : List ScanResult
  outputs : List ScanResult
  deriving DecidableEq

/-- Model of `resultPool.Get()`: pop a cached object, or `New` a zero value. -/
def poolGet : List ScanResult → ScanResult × List ScanResult
  | [] => (⟨"", []⟩, [])
  | r :: rest => (r, rest)

/-- The `ModelInfo` built for one model of one host
(src/main.go:801-810): zero-valued metrics with status `发现` when
benchmarking is disabled, otherwise the benchmark outcome. -/
def mkModelInfo (disableBench : Bool) (bench : String → String → BenchResult)
    (ip model : String) : ModelInfo :=
  if disableBench then ⟨model, 0, some 0, "发现"⟩
  else
    let b := bench ip model
    ⟨model, b.latency, b.tps, statusText b.status⟩

/-- One iteration of the `processBatch` loop (src/main.go:778-819) for a
candidate `ip` (the non-cancelled path).  Note the pooled object's
`Models` field is **never reset**: the code only assigns `result.IP` and
appends, and `resultPool.Put(result)` runs with the accumulated list in
place. -/
def processOne (cfg : ScanConfig) (env : String → HostEnv)
    (bench : String → String → BenchResult) (st : PipeState) (ip : String) :
    PipeState :=
  if ¬ (env ip).portOpen then st
  else
    let (r0, rest) := poolGet st.pool
    let r := { r0 with ip := ip }
    if cfg.portScanOnly then
      let r2 := { r with models := r.models ++ [⟨"PORT_SCAN", 0, some 0, "开放"⟩] }
      ⟨r2 :: rest, st.outputs ++ [r2]⟩
    else if (env ip).ollamaOk then
      let ms := (env ip).catalog
      if ms.isEmpty then ⟨r :: rest, st.outputs⟩
      else
        let sorted := sortModels ms
        let r2 := { r with models := r.models ++ sorted.map (mkModelInfo cfg.disableBench bench ip) }
        ⟨r2 :: rest, st.outputs ++ [r2]⟩
    else ⟨r :: rest, st.outputs⟩

/-- Translation of `processBatch` (src/main.go:778-819): the candidates of one batch,
processed in order by one worker. -/
def processBatch (cfg : ScanConfig) (env : String → HostEnv)
    (bench : String → String → BenchResult) (ips : List String)
    (st : PipeState) : PipeState :=
  ips.foldl (processOne cfg env bench) st

/-- Translation of `processIP`'s pool discipline (src/unnamed/part_000:1137-1193): same
pipeline, but the object is reset (`result.IP = ""`,
`result.Models = result.Models[:0]`) before `resultPool.Put`; records are
only emitted for hosts passing every stage with a non-empty catalog, and
this variant sorts lexically. -/
def processIP_p000 (cfg : ScanConfig) (env : String → HostEnv)
    (bench : String → String → BenchResult) (st : PipeState) (ip : String) :
    PipeState :=
  if ¬ (env ip).portOpen then st
  else if ¬ (env ip).ollamaOk then st
  else
    let ms := (env ip).catalog
    if ms.isEmpty then st
    else
      let (r0, rest) := poolGet st.pool
      let r := { r0 with ip := ip }
      let sorted := sortModels_lex ms
      let r2 := { r with models := r.models ++ sorted.map (mkModelInfo cfg.disableBench bench ip) }
      ⟨{ ip := "", models := [] } :: rest, st.outputs ++ [r2]⟩

/-! ### Worker scheduler admission gate (`WorkerPool`, src/unnamed/part_001:60-91)

`Submit` spawns a goroutine per task, but the task body runs only
between a send on the buffered channel `workers` (capacity `W`) and the
matching receive: the send succeeds only while fewer than `W` slots are
held, so the channel is a counting admission gate.  The lifecycle of the
pool is the transition system below: `submit` registers a pending task,
`start` admits one when a slot is free, `finish` releases its slot,
`cancel` drops a pending task whose context was cancelled before
admission.  `running` counts in-flight per-candidate pipelines. -/

/-- Scheduler state: pending, in-flight, finished and cancelled tasks. -/
structure SchedState where
  pending : ℕ
  running : ℕ
  finished : ℕ
  cancelled : ℕ
  deriving DecidableEq

/-- The transitions of `WorkerPool` with admission gate capacity `W`. -/
inductive SchedStep (W : ℕ) : SchedState → SchedState → Prop
  | submit (s : SchedState) :
      SchedStep W s { s with pending := s.pending + 1 }
  | start (s : SchedState) (hfree : s.running < W) (hp : 0 < s.pending) :
      SchedStep W s { s with pending := s.pending - 1, running := s.running + 1 }
  | finish (s : SchedState) (hr : 0 < s.running) :
      SchedStep W s { s with running := s.running - 1, finished := s.finished + 1 }
  | cancel (s : SchedState) (hp : 0 < s.pending) :
      SchedStep W s { s with pending := s.pending - 1, cancelled := s.cancelled + 1 }

/-- States reachable from an idle `NewWorkerPool(W)`. -/
def SchedReachable (W : ℕ) (s : SchedState) : Prop :=
  Relation.ReflTransGen (SchedStep W) ⟨0, 0, 0, 0⟩ s

/-! ### Result aggregation (`writeCSV`, `initCSVWriter`) -/

/-- Round a rational to the nearest integer (half away from rounding
down), standing in for Go's `%.0f`/`%.1f` float formatting of the
metric cells; the ties-to-even difference of `fmt` is immaterial to
every claim below. -/
def ratRound (q : ℚ) : ℤ := Int.fdiv (2 * q.num + q.den) (2 * q.den)

/-- Model of `fmt.Sprintf("%.0f", d.Seconds()*1000)` for a duration of `ns`
nanoseconds: the first-token delay column in milliseconds. -/
def fmtMs (ns : ℤ) : String := toString (ratRound ((ns : ℚ) / 1000000))

/-- Model of `fmt.Sprintf("%.1f", tps)`: the tokens-per-second column; a
non-finite float renders as `+Inf`. -/
def fmtTps : Option ℚ → String
  | none => "+Inf"
  | some q =>
    let n := ratRound (q * 10)
    toString (Int.fdiv n 10) ++ "." ++ toString (n - 10 * Int.fdiv n 10).natAbs

/-- Translation of `writeCSV` (src/main.go:741-752): one row per `ModelInfo`, columns
`IP, name, status` plus the two metric columns when benchmarking is
enabled.  This variant has no port column. -/
def writeCSV (disableBench : Bool) (res : ScanResult) : List (List String) :=
  res.models.map (fun m =>
    let record := [res.ip, m.name, m.status]
    if disableBench then record
    else record ++ [fmtMs m.firstTokenDelay, fmtTps m.tokensPerSec])

/-- Translation of `writeCSV` (src/unnamed/part_001:349-360): as main.go's but with the
configured port as second column — also when benchmarking is disabled. -/
def writeCSV_p001 (disableBench : Bool) (port : ℕ) (res : ScanResult) :
    List (List String) :=
  res.models.map (fun m =>
    let record := [res.ip, toString port, m.name, m.status]
    if disableBench then record
    else record ++ [fmtMs m.firstTokenDelay, fmtTps m.tokensPerSec])

/-- Translation of `initCSVWriter`'s header (src/main.go:572-586). -/
def csvHeader (disableBench : Bool) : List String :=
  let headers := ["IP地址", "模型名称", "状态"]
  if disableBench then headers else headers ++ ["首Token延迟(ms)", "Tokens/s"]

/-! ### The output file across the run (`initCSVWriter`, `execZmap`)

The output path is written by two parties: the buffered CSV writer of
the Go process and the external `zmap` subprocess, which is handed the
*same* path (src/main.go:636-657) and truncates it with its own file
handle.  The run order in `startScan`/`runScanProcess` is fixed:

1. `initCSVWriter` — `os.Create` truncates the file; the header row is
   written into the `csv.Writer`'s 4096-byte buffer and (being far
   shorter than the buffer) reaches the disk only on a later flush;
2. `execZmap` — the subprocess truncates the path and writes its list of
   live addresses (it finishes before stage 3 starts: `cmd.Run` waits);
3. `processResults`/`resultHandler` — data rows are appended to the
   writer's buffer, which is flushed at arbitrary points (when the
   buffer fills, on the final `csvWriter.Flush`, or in the signal
   handler on early cancellation).

A file is a char sequence; the Go handle keeps its own offset (offsets
are per open file description, so zmap's truncation does not move it),
and each flush overwrites bytes at that offset. -/

/-- Buffered-writer operations of stage 3: append to the buffer, or
flush the buffer to the file. -/
inductive FileOp where
  | bufWrite (s : List Char)
  | flush
  deriving DecidableEq

/-- File plus Go-writer state: current file bytes, the Go handle's
offset, the writer's buffer. -/
structure WriterState where
  file : List Char
  goOff : ℕ
  buf : List Char
  deriving DecidableEq

/-- Overwrite `d` into `f` at offset `off` (POSIX write semantics at an
offset inside the file). -/
def writeAt (f : List Char) (off : ℕ) (d : List Char) : List Char :=
  f.take off ++ d ++ f.drop (off + d.length)

/-- One buffered-writer operation. -/
def stepOp (st : WriterState) : FileOp → WriterState
  | .bufWrite s => { st with buf := st.buf ++ s }
  | .flush => ⟨writeAt st.file st.goOff st.buf, st.goOff + st.buf.length, []⟩

/-- Run a sequence of writer operations. -/
def runOps (st : WriterState) (ops : List FileOp) : WriterState :=
  ops.foldl stepOp st

/-- The byte strings buffered by a sequence of operations. -/
def opRows (ops : List FileOp) : List (List Char) :=
  ops.filterMap (fun o =>
    match o with
    | .bufWrite s => some s
    | .flush => none)

/-- The whole run on the output path: start from the state left by
stages 1 and 2 (file holds the zmap output `Z`, the Go offset is still
0, the header sits in the buffer), run the stage-3 operations, and end
with the final flush (`processResults` or the signal handler flushes in
every exit path). -/
def scanRun (header Z : List Char) (ops : List FileOp) : WriterState :=
  runOps ⟨Z, 0, header⟩ (ops ++ [.flush])

/-- Newline-split of a byte sequence into lines. -/
def fileLines (l : List Char) : List (List Char) := splitChar '\n' l

/-- Invariant tying the output path to the Go writer during stage 3:
some prefix `W` of the Go byte stream has been flushed — the file is `W`
followed by whatever tail of the zmap output `Z` it has not yet
overwritten, the Go offset sits at the end of `W`, and `W` plus the
pending buffer is the whole stream `S` produced so far. -/
def WriterInv (Z S : List Char) (st : WriterState) : Prop :=
  ∃ W, st.file = W ++ Z.drop W.length ∧ st.goOff = W.length ∧
    W ++ st.buf = S

/-! ### Spec-side comparison definitions

The following definitions translate the *claims'* wording, not the code;
each is used only to compare a claimed behaviour with the embedded
source function. -/

/-- Modelled from the spec (§4.2, claim C7): the claimed Service Prober
classification — `ServiceOk` exactly on a 2xx status whose (whole) body
contains the service-identifying marker. -/
def specServiceOk (resp : Option (ℕ × List Char)) : Bool :=
  match resp with
  | none => false
  | some (status, body) =>
    (200 ≤ status && status < 300) && containsSeg ollamaMarker body

/-- Accumulator for `dedupFirst`. -/
def dedupFirstAux (seen : List String) : List String → List String
  | [] => []
  | x :: xs =>
    if x ∈ seen then dedupFirstAux seen xs
    else x :: dedupFirstAux (x :: seen) xs

/-- Deduplicate preserving first occurrence (the spec's §4.3 wording). -/
def dedupFirst (l : List String) : List String := dedupFirstAux [] l

/-- Modelled from the spec (§4.3, claim C4): the claimed Model Catalog
Fetcher — extract, deduplicate preserving first occurrence, sort. -/
def specCatalog (resp : Option (ℕ × Option (List String))) : List String :=
  sortModels (dedupFirst (getModels resp))

/-- Modelled from the spec (§6, claim C9): the claimed row shape —
columns `{address, port, model name, status, first-token-delay-ms,
tokens-per-second}`, reduced to `{address, model name, status}` when
benchmarking is disabled. -/
def specRows (disableBench : Bool) (port : ℕ) (res : ScanResult) :
    List (List String) :=
  res.models.map (fun m =>
    if disableBench then [res.ip, m.name, m.status]
    else [res.ip, toString port, m.name, m.status,
          fmtMs m.firstTokenDelay, fmtTps m.tokensPerSec])

/-! ### Concrete scenario inputs used by the evaluation theorems -/

/-- Scenario (claim C2): two candidates, both passing every probe, with
disjoint one-model catalogs. -/
def envTwoHosts : String → HostEnv := fun ip =>
  if ip = "1.1.1.1" then ⟨true, true, ["m1"]⟩
  else if ip = "2.2.2.2" then ⟨true, true, ["m2"]⟩
  else ⟨false, false, []⟩

/-- Scenario (claim C2): a benchmark oracle succeeding instantly. -/
def benchConst : String → String → BenchResult := fun _ _ => ⟨5, some 1, .success⟩

/-- Scenario (claims C1, C3): a 200 streaming response. -/
def oneLineDone : Option (ℕ × List StreamLine) :=
  some (200, [⟨0, "Hi", some true⟩])

/-- Scenario (claim C3): two lines at instants 2 and 3, the first
carrying a non-empty token fragment, the second the `done` terminator. -/
def twoLineStream : Option (ℕ × List StreamLine) :=
  some (200, [⟨2, "Hi", some false⟩, ⟨3, "", some true⟩])

/-! ## Theorems -/

/-! ### Sanity evaluations of the embedded parsing functions -/

example : parseGoFloat "7".data = some 7 := by decide
example : parseGoFloat "0.5".data = some (1/2) := by decide
example : parseGoFloat "latest".data = none := by decide
example : parseGoFloat "".data = none := by decide
example : parseModelSize "llama3:8b" = 8 := by decide
example : parseModelSize "qwen:0.5b" = 1/2 := by decide
example : parseModelSize "llama3.2" = 0 := by decide
example : parseModelSize "m:latest" = 0 := by decide

/-! ### Claim C8 — port prober error handling -/

/-- C8: `checkPort` returns Closed (`false`) for every kind of
connection error — refused, timeout, unreachable or DNS failure — with
no distinction between causes, and Open (`true`) exactly when the TCP
dial succeeds within the configured timeout. -/
theorem C8_port_prober_closed_on_any_error :
    checkPort .ok = true ∧
    (∀ e : DialErr, checkPort (.err e) = false) ∧
    (∀ e₁ e₂ : DialErr, checkPort (.err e₁) = checkPort (.err e₂)) ∧
    (∀ d : DialOutcome, checkPort d = true ↔ d = .ok) :=
  ⟨rfl, fun _ => rfl, fun _ _ => rfl,
   fun d => by cases d <;> simp [checkPort]⟩

/-! ### Claim C1 — zero-interval guard of the benchmark engine

`benchmarkModel` in src/main.go divides `tokenCount` by
`lastToken.Sub(start).Seconds()` with no zero-interval guard and has no
zero-interval status at all; the part_001 variant implements the guard
the spec requires.  The theorem evaluates both at the failing input: a
single-line stream whose line arrives at the same clock tick as the
recorded start. -/

/-- C1: at a 200 response whose single (done, non-empty-fragment) line
arrives at instant 0 with `start = 0` — token count 1, elapsed exactly
zero — main.go's `benchmarkModel` performs the division anyway,
returning status `成功` with a non-finite tokens-per-second (`none`,
i.e. `+Inf`), not a dedicated zero-interval status; the part_001
variant returns the dedicated `zeroInterval` status with a finite 0. -/
theorem C1_main_unguarded_zero_interval :
    benchmarkModel false 0 oneLineDone = ⟨0, none, .success⟩ ∧
    (benchmarkModel false 0 oneLineDone).status ≠ .zeroInterval ∧
    (benchmarkModel false 0 oneLineDone).tps = none ∧
    benchmarkModel_p001 oneLineDone = ⟨0, some 0, .zeroInterval⟩ := by
  refine ⟨by decide, by decide, by decide, by decide⟩

/-! ### Claim C3 — first-token latency sign

The part_000 variant computes the reported latency as
`首个令牌时间.Sub(time.Now())` — first-token instant minus a clock
reading taken *after* the stream is drained — instead of
`t_first - t0`; the result is negative whenever any time has passed.
src/main.go computes `firstToken.Sub(start)`, the claimed value. -/

/-- C3: on a stream whose first line (carrying a non-empty fragment)
arrives at instant 2 with `t0 = 0` and the post-stream `time.Now()` at
instant 5, part_000's `benchmarkModel` reports latency `2 - 5 = -3`,
a negative value and not `t_first - t0`; main.go's variant reports
`t_first - t0 = 2` as the claim states. -/
theorem C3_p000_latency_negative :
    (benchmarkModel_p000 5 twoLineStream).latency = 2 - 5 ∧
    (benchmarkModel_p000 5 twoLineStream).latency < 0 ∧
    (benchmarkModel false 0 twoLineStream).latency = 2 - 0 := by
  refine ⟨by decide, by decide, by decide⟩

/-! ### Claim C2 — pooled `ScanResult` reuse

src/main.go's `processBatch` takes a `ScanResult` from `resultPool`,
assigns only its `IP` field, appends to its `Models` slice and returns
it to the pool without resetting `Models`; when the pool hands the same
object to a later candidate, the earlier candidate's model entries are
still in the slice and are emitted again.  part_000's `processIP`
resets the object before `Put` and does not leak. -/

/-- C2: processing candidates `1.1.1.1` (catalog `["m1"]`) then
`2.2.2.2` (catalog `["m2"]`) with one worker and an initially empty
pool, the second emitted record carries `["m1", "m2"]` although `"m1"`
was returned by the catalog fetch only for the first host; under
part_000's reset discipline the second record carries exactly
`["m2"]`. -/
theorem C2_pool_reuse_leaks_models :
    (((processBatch ⟨false, false⟩ envTwoHosts benchConst
        ["1.1.1.1", "2.2.2.2"] ⟨[], []⟩).outputs.getD 1 ⟨"", []⟩).models.map
          (fun m => m.name) = ["m1", "m2"]) ∧
    ("m1" ∉ (envTwoHosts "2.2.2.2").catalog) ∧
    ((((["1.1.1.1", "2.2.2.2"].foldl
          (processIP_p000 ⟨false, false⟩ envTwoHosts benchConst)
          ⟨[], []⟩).outputs.getD 1 ⟨"", []⟩).models.map
            (fun m => m.name)) = ["m2"]) := by
  refine ⟨by decide, by decide, by decide⟩

/-! ### Claim C7 — service prober classification

The claim says `ServiceOk` exactly on a 2xx response containing the
marker; the code compares the status against exactly 200
(`resp.StatusCode != http.StatusOK`), so a 2xx-but-not-200 response with
the marker body is classified absent.  The code also searches only the
single `Read` chunk of at most 1024 bytes, never the whole body. -/

/-- C7 counterexample: a status-202 response whose body is exactly the
marker string is `ServiceOk` under the claim's classification but
`false` (ServiceAbsent) under `checkOllama`. -/
theorem C7_counterexample_202_with_marker :
    specServiceOk (some (202, "Ollama is running".data)) = true ∧
    checkOllama (some (202, "Ollama is running".data)) = false := by
  refine ⟨by decide, by decide⟩

/-- C7 (amended): for every probed address with an open port, a
transport error or a status other than exactly 200 is classified
ServiceAbsent, and the address is ServiceOk exactly when the status is
200 and the first 1024 bytes of the body contain the marker string —
or, in the catalog-only variant, when the status is 200 and the body
decodes as JSON with a non-empty model list. -/
theorem C7_service_prober_classification :
    (∀ resp, checkOllama resp = true ↔
      ∃ body, resp = some (200, body) ∧
        containsSeg ollamaMarker (body.take 1024) = true) ∧
    (∀ resp, checkOllama_cat resp = true ↔
      ∃ k, resp = some (200, some k) ∧ 0 < k) := by
  constructor
  · intro resp
    match resp with
    | none => simp [checkOllama]
    | some (status, body) =>
      by_cases h : status = 200
      · subst h
        simp [checkOllama]
      · simp [checkOllama, h, Ne.symm h]
  · intro resp
    match resp with
    | none => simp [checkOllama_cat]
    | some (status, decoded) =>
      by_cases h : status = 200
      · subst h
        match decoded with
        | none => simp [checkOllama_cat]
        | some k => simp [checkOllama_cat]
      · match decoded with
        | none => simp [checkOllama_cat, h, Ne.symm h]
        | some k => simp [checkOllama_cat, h, Ne.symm h]

/-- C7 witness: the amended classification applied at a concrete 200
response carrying the marker. -/
theorem C7_service_prober_witness :
    checkOllama (some (200, "Ollama is running".data)) = true :=
  (C7_service_prober_classification.1 _).mpr ⟨_, rfl, by decide⟩

/-! ### Claim C4 — catalog extraction, deduplication, ordering

`getModels` (src/main.go:845-870) extracts the identifiers in document
order and performs no deduplication — only part_003's
`checkOllamaService` deduplicates (and that variant *errors* on an
undecodable document); `sortModels` then sorts by parsed size, keeping
duplicates.  The soft-fail behaviour (empty list, never an error) holds. -/

/-- C4 counterexample: a decodable catalog listing `"a"` twice.  The
claimed fetcher (dedup first occurrence, then sort) yields `["a"]`, but
`sortModels ∘ getModels` yields `["a", "a"]` — the duplicate survives. -/
theorem C4_counterexample_duplicate_survives :
    sortModels (getModels (some (200, some ["a", "a"]))) = ["a", "a"] ∧
    specCatalog (some (200, some ["a", "a"])) = ["a"] := by
  refine ⟨by decide, by decide⟩

/-- C4 (amended): for every JSON catalog document, the Model Catalog
Fetcher (`getModels` composed with `sortModels`) extracts the model
identifiers in catalog order **without deduplicating** them, sorts them
deterministically by parsed model size (a sorted permutation of the
extracted list, duplicates preserved), and returns the empty list rather
than an error whenever the catalog is empty or the document is
undecodable.  Conjuncts, in order: an undecodable document yields the
empty list whatever the status; an empty catalog yields the empty list;
a decoded catalog is extracted verbatim in document order (no
deduplication); the sorted composite output is a permutation of the
extracted identifiers; it is pairwise ordered by parsed size. -/
theorem C4_catalog_soft_fail_and_sort :
    (∀ st : ℕ, getModels (some (st, none)) = []) ∧
    (sortModels (getModels (some (200, some []))) = []) ∧
    (∀ names, getModels (some (200, some names)) = names) ∧
    (∀ resp, (sortModels (getModels resp)).Perm (getModels resp)) ∧
    (∀ resp, (sortModels (getModels resp)).Pairwise sizeLe) := by
  refine ⟨?_, by decide, ?_, ?_, ?_⟩
  · intro st
    by_cases h : st = 200
    · subst h; simp [getModels]
    · simp [getModels, h]
  · intro names
    simp [getModels]
  · intro resp
    exact List.perm_insertionSort sizeLe _
  · intro resp
    exact List.sorted_insertionSort sizeLe _

/-! ### Claim C10 — model-size parsing and size ordering -/

/-- C10: whenever an identifier has no `':'`-separated size segment
(fewer than two segments) or its final segment does not parse as a float
after stripping one trailing `'b'`, `parseModelSize` returns 0;
`sortModels` produces a permutation ordered by parsed size (so every
identifier of parsed size 0 — in particular every such unparseable
identifier — precedes every identifier of positive parsed size), and the
order is by size only, not lexical: on `["b:2b", "a:7b"]` it keeps the
size order `b:2b` before `a:7b` where lexical sorting
(`sortModels_lex`, the part_001/part_000 comparator) would swap them. -/
theorem C10_parse_size_and_sort :
    (∀ m : String,
      (splitChar ':' m.data).length < 2 ∨
        parseGoFloat (trimSuffixB ((splitChar ':' m.data).getLastD [])) = none →
      parseModelSize m = 0) ∧
    (∀ ms, (sortModels ms).Perm ms) ∧
    (∀ ms, (sortModels ms).Pairwise
      (fun a b => 0 < parseModelSize a → 0 < parseModelSize b)) ∧
    sortModels ["b:2b", "a:7b"] = ["b:2b", "a:7b"] ∧
    sortModels_lex ["b:2b", "a:7b"] = ["a:7b", "b:2b"] := by
  refine ⟨?_, ?_, ?_, by decide, by decide⟩
  · intro m h
    cases h with
    | inl h =>
      simp only [parseModelSize, if_pos h]
    | inr h =>
      by_cases hlen : (splitChar ':' m.data).length < 2
      · simp only [parseModelSize, if_pos hlen]
      · simp only [parseModelSize, if_neg hlen, h]
  · intro ms
    exact List.perm_insertionSort sizeLe ms
  · intro ms
    refine (List.sorted_insertionSort sizeLe ms).imp ?_
    intro a b hab hpos
    exact lt_of_lt_of_le hpos hab

/-- C10 witness: the zero-size rule applied at the colon-free identifier
`"llama3.2"` and at `"m:latest"`, whose final segment does not parse. -/
theorem C10_parse_size_witness :
    parseModelSize "llama3.2" = 0 ∧ parseModelSize "m:latest" = 0 :=
  ⟨C10_parse_size_and_sort.1 "llama3.2" (Or.inl (by decide)),
   C10_parse_size_and_sort.1 "m:latest" (Or.inr (by decide))⟩

/-! ### Claim C9 — persisted row shape

The claim's full column set includes a port column; src/main.go's
`writeCSV` (and its header) has none — its rows are
`{address, model name, status}` plus the two metric columns when
benchmarking is enabled.  The part_001 variant *does* carry the port
column, but keeps it when benchmarking is disabled, where the claim's
reduced set drops it.  One row per (host, model) pair holds in both. -/

/-- C9 counterexample: a record with one benchmarked model.  The claim's
row has 6 columns (with the port); main.go's `writeCSV` emits 5 — there
is no port column — so the emitted rows differ from the claimed rows. -/
theorem C9_counterexample_no_port_column :
    (((writeCSV false ⟨"1.2.3.4", [⟨"m", 0, some 0, "成功"⟩]⟩).getD 0 []).length
      = 5) ∧
    (((specRows false 11434 ⟨"1.2.3.4", [⟨"m", 0, some 0, "成功"⟩]⟩).getD 0
        []).length = 6) ∧
    writeCSV false ⟨"1.2.3.4", [⟨"m", 0, some 0, "成功"⟩]⟩ ≠
      specRows false 11434 ⟨"1.2.3.4", [⟨"m", 0, some 0, "成功"⟩]⟩ := by
  refine ⟨by decide, by decide, fun h => ?_⟩
  have := congrArg (fun rows => ((List.getD rows 0 []).length : ℕ)) h
  revert this
  decide

/-- C9 (amended): each persisted record yields exactly one row per
(host, model) pair; in main.go the columns are `{address, model name,
status}` plus `{first-token-delay-ms, tokens-per-second}` when
benchmarking is enabled (no port column), and in the part_001 variant
`{address, port, model name, status}` plus the two metric columns, the
port column being retained also when benchmarking is disabled. -/
theorem C9_one_row_per_model :
    ∀ (flag : Bool) (port : ℕ) (res : ScanResult),
      (writeCSV flag res).length = res.models.length ∧
      List.Forall₂ (fun (m : ModelInfo) row =>
          row = [res.ip, m.name, m.status] ++
            (if flag then [] else [fmtMs m.firstTokenDelay, fmtTps m.tokensPerSec]))
        res.models (writeCSV flag res) ∧
      (writeCSV_p001 flag port res).length = res.models.length ∧
      List.Forall₂ (fun (m : ModelInfo) row =>
          row = [res.ip, toString port, m.name, m.status] ++
            (if flag then [] else [fmtMs m.firstTokenDelay, fmtTps m.tokensPerSec]))
        res.models (writeCSV_p001 flag port res) := by
  intro flag port res
  refine ⟨by simp [writeCSV], ?_, by simp [writeCSV_p001], ?_⟩
  · rw [writeCSV, List.forall₂_map_right_iff]
    refine List.forall₂_same.2 (fun m _ => ?_)
    cases flag <;> simp
  · rw [writeCSV_p001, List.forall₂_map_right_iff]
    refine List.forall₂_same.2 (fun m _ => ?_)
    cases flag <;> simp

/-! ### Claim C6 — bounded in-flight pipelines

Each task body of `WorkerPool.Submit` runs only between a successful
send on the capacity-`W` buffered channel and the matching receive, so
the number of running per-candidate pipelines equals the number of held
channel slots.  The invariant is proved over all reachable scheduler
states. -/

/-- C6: for every admission-gate capacity `W ≥ 1` and every state the
`WorkerPool` can reach from idle (any candidate set, any interleaving of
submissions, admissions, completions and cancellations), the number of
in-flight per-candidate pipelines never exceeds `W`. -/
theorem C6_inflight_pipelines_bounded (W : ℕ) (_hW : 1 ≤ W)
    (s : SchedState) (h : SchedReachable W s) : s.running ≤ W := by
  clear _hW
  induction h with
  | refl => exact Nat.zero_le W
  | tail _ step ih =>
    cases step with
    | submit => exact ih
    | start hfree hp => exact hfree
    | finish hr => exact le_trans (Nat.sub_le _ _) ih
    | cancel hp => exact ih

/-- C6 witness: with capacity 2, the state reached by submitting two
tasks and admitting one has 1 ≤ 2 pipelines in flight. -/
theorem C6_inflight_bounded_witness :
    SchedReachable 2 ⟨1, 1, 0, 0⟩ ∧ (1 : ℕ) ≤ 2 ∧
      (SchedState.mk 1 1 0 0).running ≤ 2 := by
  have h1 : SchedStep 2 ⟨0, 0, 0, 0⟩ ⟨1, 0, 0, 0⟩ := SchedStep.submit _
  have h2 : SchedStep 2 ⟨1, 0, 0, 0⟩ ⟨2, 0, 0, 0⟩ := SchedStep.submit _
  have h3 : SchedStep 2 ⟨2, 0, 0, 0⟩ ⟨1, 1, 0, 0⟩ :=
    SchedStep.start _ (by decide) (by decide)
  have hreach : SchedReachable 2 ⟨1, 1, 0, 0⟩ :=
    Relation.ReflTransGen.tail
      (Relation.ReflTransGen.tail
        (Relation.ReflTransGen.tail Relation.ReflTransGen.refl h1) h2) h3
  exact ⟨hreach, by decide,
    C6_inflight_pipelines_bounded 2 (by decide) _ hreach⟩

/-! ### Claim C5 — header written exactly once, before any data row

Supporting lemmas: the writer invariant is preserved by every buffered
operation, so after the final flush the file is the Go byte stream
(header first, then the rows) followed by whatever tail of the zmap
output was not overwritten.  `splitChar` lemmas then decompose the file
into lines. -/

theorem stepOp_bufWrite_inv {Z S : List Char} {st : WriterState}
    (s : List Char) (h : WriterInv Z S st) :
    WriterInv Z (S ++ s) (stepOp st (.bufWrite s)) := by
  obtain ⟨W, hf, ho, hb⟩ := h
  refine ⟨W, hf, ho, ?_⟩
  show W ++ (st.buf ++ s) = S ++ s
  rw [← List.append_assoc, hb]

theorem stepOp_flush_inv {Z S : List Char} {st : WriterState}
    (h : WriterInv Z S st) : WriterInv Z S (stepOp st .flush) := by
  obtain ⟨W, hf, ho, hb⟩ := h
  refine ⟨W ++ st.buf, ?_, ?_, ?_⟩
  · show writeAt st.file st.goOff st.buf =
      (W ++ st.buf) ++ Z.drop (W ++ st.buf).length
    rw [writeAt, hf, ho, List.take_left]
    have hdrop : (W ++ Z.drop W.length).drop (W.length + st.buf.length) =
        Z.drop ((W ++ st.buf).length) := by
      rw [← List.drop_drop, List.drop_left, List.drop_drop, List.length_append]
    rw [hdrop, List.append_assoc]
  · show st.goOff + st.buf.length = (W ++ st.buf).length
    rw [ho, List.length_append]
  · show (W ++ st.buf) ++ [] = S
    rw [List.append_nil, hb]

theorem runOps_inv (ops : List FileOp) :
    ∀ {Z S : List Char} {st : WriterState}, WriterInv Z S st →
      WriterInv Z (S ++ (opRows ops).flatten) (runOps st ops) := by
  induction ops with
  | nil =>
    intro Z S st h
    simpa [runOps, opRows] using h
  | cons op ops ih =>
    intro Z S st h
    cases op with
    | bufWrite s =>
      have h2 := ih (stepOp_bufWrite_inv s h)
      simpa [runOps, opRows, List.filterMap_cons, List.append_assoc] using h2
    | flush =>
      have h2 := ih (stepOp_flush_inv h)
      simpa [runOps, opRows, List.filterMap_cons] using h2

theorem scanRun_file (header Z : List Char) (ops : List FileOp) :
    (scanRun header Z ops).file =
      (header ++ (opRows ops).flatten) ++
        Z.drop (header ++ (opRows ops).flatten).length := by
  have h0 : WriterInv Z header ⟨Z, 0, header⟩ := ⟨[], by simp, rfl, rfl⟩
  have h1 := runOps_inv (ops ++ [.flush]) h0
  have hbuf : (runOps ⟨Z, 0, header⟩ (ops ++ [.flush])).buf = [] := by
    rw [runOps, List.foldl_append]
    rfl
  obtain ⟨W, hf, _, hb⟩ := h1
  rw [hbuf, List.append_nil] at hb
  have hrows : opRows (ops ++ [.flush]) = opRows ops := by
    simp [opRows, List.filterMap_append]
  rw [hrows] at hb
  show (runOps ⟨Z, 0, header⟩ (ops ++ [.flush])).file = _
  rw [hf, hb]

theorem splitChar_line_append (sep : Char) (x t : List Char)
    (hx : sep ∉ x) : splitChar sep (x ++ sep :: t) = x :: splitChar sep t := by
  induction x with
  | nil => simp [splitChar]
  | cons c x ih =>
    have hc : ¬ (c = sep) := fun h => hx (h ▸ List.mem_cons_self c x)
    have hx2 : sep ∉ x := fun h => hx (List.mem_cons_of_mem c h)
    rw [List.cons_append]
    simp only [splitChar, if_neg hc, ih hx2]

theorem splitChar_term_append (sep : Char) (ls : List (List Char))
    (T : List Char) (h : ∀ r ∈ ls, sep ∉ r) :
    splitChar sep ((ls.map (fun r => r ++ [sep])).flatten ++ T) =
      ls ++ splitChar sep T := by
  induction ls with
  | nil => simp
  | cons r ls ih =>
    have hr : sep ∉ r := h r (List.mem_cons_self r ls)
    have hls : ∀ r2 ∈ ls, sep ∉ r2 := fun r2 h2 => h r2 (List.mem_cons_of_mem r h2)
    have hshape : ((List.map (fun r => r ++ [sep]) (r :: ls)).flatten ++ T) =
        r ++ (sep :: ((List.map (fun r => r ++ [sep]) ls).flatten ++ T)) := by
      simp
    rw [hshape, splitChar_line_append sep r _ hr, ih hls, List.cons_append]

/-- C5: for every run — any sequence of data rows, any interleaving of
buffer fills and flushes (covering arbitrary run length and early
cancellation, whose signal handler flushes), and any content `Z` the
external zmap stage wrote over the same output path between the header
write and the scan stage — the persisted file starts with the header
line and contains it exactly once, before every data row.  Side
conditions: the header and rows are newline-free (CSV cells), no data
row equals the header, and no line of the zmap remnant beyond the
Go-written stream equals the header (zmap writes only address
literals). -/
theorem C5_header_exactly_once (hl : List Char) (rows : List (List Char))
    (Z : List Char) (ops : List FileOp)
    (hops : opRows ops = rows.map (fun r => r ++ ['\n']))
    (hhl : '\n' ∉ hl)
    (hrows : ∀ r ∈ rows, '\n' ∉ r)
    (hneq : hl ∉ rows)
    (hz : hl ∉ splitChar '\n' (Z.drop
      (((hl ++ ['\n']) ++ (rows.map (fun r => r ++ ['\n'])).flatten).length))) :
    (fileLines (scanRun (hl ++ ['\n']) Z ops).file).head? = some hl ∧
    (fileLines (scanRun (hl ++ ['\n']) Z ops).file).count hl = 1 := by
  have hfile := scanRun_file (hl ++ ['\n']) Z ops
  rw [hops] at hfile
  have hS : (hl ++ ['\n']) ++ (rows.map (fun r => r ++ ['\n'])).flatten =
      ((hl :: rows).map (fun r => r ++ ['\n'])).flatten := by
    simp
  have hall : ∀ r ∈ hl :: rows, '\n' ∉ r := by
    intro r hr
    cases hr with
    | head => exact hhl
    | tail _ h2 => exact hrows r h2
  rw [hS] at hfile hz
  have hlines : fileLines (scanRun (hl ++ ['\n']) Z ops).file =
      (hl :: rows) ++ splitChar '\n' (Z.drop
        (((hl :: rows).map (fun r => r ++ ['\n'])).flatten.length)) := by
    rw [fileLines, hfile, splitChar_term_append '\n' (hl :: rows) _ hall]
  constructor
  · rw [hlines, List.cons_append]
    rfl
  · rw [hlines, List.cons_append, List.count_cons_self, List.count_append,
      List.count_eq_zero.2 hneq, List.count_eq_zero.2 hz]

/-- C5 witness: header `"H"`, one data row `"r"`, zmap content
`"zz\nyy"`, one buffered row write then the final flush. -/
theorem C5_header_exactly_once_witness :
    (fileLines (scanRun ("H".data ++ ['\n']) "zz\nyy".data
        [.bufWrite "r\n".data, .flush]).file).head? = some "H".data ∧
    (fileLines (scanRun ("H".data ++ ['\n']) "zz\nyy".data
        [.bufWrite "r\n".data, .flush]).file).count "H".data = 1 :=
  C5_header_exactly_once "H".data ["r".data] "zz\nyy".data
    [.bufWrite "r\n".data, .flush]
    (by decide) (by decide) (by decide) (by decide) (by decide)

end ScanModel
